import Mathlib

/-
Shallow embedding of flask_commentease (src/flask_commentease/__init__.py).

Modelling conventions, all taken from the source:
 - Machine integers in the SQL columns are unbounded `Int` (SQLite/Postgres
   integer columns; no overflow behaviour is exercised by the code).
 - Python `None` on a nullable column or payload is `Option.none`.
 - `VoteSet.persisted` models `self.id is not None`: the object has been
   flushed to the database.  The source chooses between SQL-expression
   deltas (`select([...c.count]) + 1`, modelled as reading the current
   value and adding the delta) and literal assignments (`self.count = 1`)
   on exactly this test.
 - `VoteSet.getvote` models `Vote.query.get((user.id, self.id))`: the point
   lookup of the voter's record among this set's vote records.
 - Exceptions (`raise ValueError`, Python `TypeError` from `sum`, the
   `AttributeError` from the `self.db` typo on the CUSTOM branch) are
   modelled with `Except.error`.
 - The external renderers (`coaster.gfm.markdown`, `bleach.clean`) are not
   part of this repository; they are modelled symbolically: `Html` records
   which renderer was applied to which raw text, nothing more.
-/

deriving instance DecidableEq for Except

namespace Commentease

/-- Vote patterns (class VOTE_PATTERN, source lines 33-37). -/
def VOTE_PATTERN.UP_ONLY : Nat := 1

def VOTE_PATTERN.UP_DOWN : Nat := 2

def VOTE_PATTERN.RANGE : Nat := 3

def VOTE_PATTERN.CUSTOM : Nat := 4

/-- Comment statuses (class COMMENT_STATUS, source lines 40-46). -/
def COMMENT_STATUS.DRAFT : Nat := 1

def COMMENT_STATUS.PUBLIC : Nat := 2

def COMMENT_STATUS.SCREENED : Nat := 3

def COMMENT_STATUS.HIDDEN : Nat := 4

def COMMENT_STATUS.SPAM : Nat := 5

def COMMENT_STATUS.DELETED : Nat := 6

/-- Output of the external renderers, kept symbolic: `markdownOf raw` is the
result of `coaster.gfm.markdown(raw)`, `sanitizedOf raw` the result of
`bleach.clean(raw, ...)` (Commentease.sanitize).  The two renderers are
distinct external functions; their outputs are distinct symbols. -/
inductive Html where
  | markdownOf (raw : String)
  | sanitizedOf (raw : String)
deriving DecidableEq

/-- coaster.gfm.markdown, the markdown renderer imported at source line 20. -/
def markdown (raw : String) : Html := Html.markdownOf raw

/-- Commentease.sanitize (source lines 137-141): bleach.clean with the
configured tags and attributes. -/
def sanitize (raw : String) : Html := Html.sanitizedOf raw

/-- Commentease.cook (source lines 143-147): `self.parsers[parser](text)`,
where `parsers = {'html': self.sanitize, 'markdown': markdown}` (lines
126-129).  An unknown parser tag raises KeyError. -/
def cook (parser : String) (text : String) : Except String Html :=
  if parser == "html" then .ok (sanitize text)
  else if parser == "markdown" then .ok (markdown text)
  else .error "KeyError"

/-- One vote record (class Vote, source lines 162-175): primary key
(user_id, voteset_id), nullable integer payload `data`.  The voteset id is
implicit: a `Vote` value always lives inside its `VoteSet.votes` list. -/
structure Vote where
  user : Nat
  data : Option Int
deriving DecidableEq

/-- Class VoteSet (source lines 177-301).  `count` and `score` are the
non-nullable integer aggregate columns; `score` is `Option Int` because the
UP_ONLY branch of `vote` can assign the Python value `None` to it (source
line 217).  `min`/`max` are the nullable RANGE bounds.  `persisted` models
`self.id is not None`, and `votes` the backref collection of Vote rows. -/
structure VoteSet where
  pattern : Nat
  count : Int
  score : Option Int
  min : Option Int
  max : Option Int
  persisted : Bool
  votes : List Vote
deriving DecidableEq

/-- VoteSet.__init__ (source lines 194-197): `count = 0`, `score = 0`; a
fresh object has no id (`persisted = false`) and no vote records. -/
def VoteSet.init (pattern : Nat) : VoteSet :=
  { pattern := pattern
    count := 0
    score := some 0
    min := none
    max := none
    persisted := false
    votes := [] }

/-- Python 2 `<=` on int-or-None operands: `None` compares below every
integer, so `None <= x` is always true and `int <= None` is always false.
Used by the RANGE bounds check `self.min <= data <= self.max`. -/
def pyLe : Option Int → Option Int → Bool
  | none, _ => true
  | some _, none => false
  | some a, some b => a ≤ b

/-- Addition of int-or-NULL values as the database evaluates the delta
expression `score + data`: NULL propagates. -/
def optAdd : Option Int → Option Int → Option Int
  | some a, some b => some (a + b)
  | _, _ => none

/-- Subtraction of int-or-NULL values, as in `score - vote.data`. -/
def optSub : Option Int → Option Int → Option Int
  | some a, some b => some (a - b)
  | _, _ => none

/-- VoteSet.getvote (source lines 300-301): point lookup of the (user,
voteset) record. -/
def VoteSet.getvote (vs : VoteSet) (user : Nat) : Option Vote :=
  vs.votes.find? (fun v => v.user == user)

/-- In-place mutation `vote.data = data` of the voter's record inside the
set's vote collection. -/
def VoteSet.setdata (vs : VoteSet) (user : Nat) (d : Option Int) : VoteSet :=
  { vs with votes := vs.votes.map (fun v =>
      if v.user == user then { v with data := d } else v) }

/-- VoteSet.vote (source lines 199-278).  Returns the (possibly updated)
vote set together with the vote record the Python method returns.
Branch-for-branch translation:
 - UP_ONLY (204-217): non-None data raises ValueError; a fresh vote adds a
   record with `data=None` and either applies the SQL delta `count+1`,
   `score+1` (persisted) or assigns `count = 1`, `score = data` -- which is
   the Python value None -- when the set has no id yet (lines 216-217);
   an existing vote returns unchanged.
 - UP_DOWN (218-241): data outside {+1,-1} raises; fresh vote: delta
   `count+1`, `score+data` (persisted) or literals `count = 1`,
   `score = data`; revote with a different value updates the record and
   adds `data * 2` to score (line 238), or assigns `score = data` on the
   unreachable unsaved branch (line 241); revote with the same value is a
   no-op.
 - RANGE (242-261): raises "Vote data out of range" when
   `self.min <= data <= self.max` holds (the source's inverted check,
   lines 243-245, Python 2 comparison semantics for None); otherwise a
   fresh vote applies `count+1`, `score+data` or the unsaved literals, and
   a revote with a different value sets `score = score - vote.data + data`.
 - CUSTOM (262-274): a fresh vote calls `self.db.session.add`, but VoteSet
   has no attribute `db` (the other branches use the closure variable
   `db`), so line 265 raises AttributeError before any counter changes;
   a revote replaces the payload.
 - any other pattern raises "Unknown voting pattern." (lines 275-277). -/
def VoteSet.vote (vs : VoteSet) (user : Nat) (data : Option Int) :
    Except String (VoteSet × Vote) :=
  let vote? := vs.getvote user
  if vs.pattern == VOTE_PATTERN.UP_ONLY then
    if data.isSome then .error "Invalid vote data."
    else
      match vote? with
      | none =>
        let v : Vote := { user := user, data := none }
        if vs.persisted then
          .ok ({ vs with
                 count := vs.count + 1
                 score := optAdd vs.score (some 1)
                 votes := vs.votes ++ [v] }, v)
        else
          .ok ({ vs with count := 1, score := data, votes := vs.votes ++ [v] }, v)
      | some v => .ok (vs, v)
  else if vs.pattern == VOTE_PATTERN.UP_DOWN then
    if data != some 1 && data != some (-1) then .error "Invalid vote data."
    else
      match vote? with
      | none =>
        let v : Vote := { user := user, data := data }
        if vs.persisted then
          .ok ({ vs with
                 count := vs.count + 1
                 score := optAdd vs.score data
                 votes := vs.votes ++ [v] }, v)
        else
          .ok ({ vs with count := 1, score := data, votes := vs.votes ++ [v] }, v)
      | some v =>
        if data != v.data then
          if vs.persisted then
            .ok ({ (vs.setdata user data) with
                   score := optAdd vs.score (optAdd data data) }, { v with data := data })
          else
            .ok ({ (vs.setdata user data) with score := data }, { v with data := data })
        else .ok (vs, v)
  else if vs.pattern == VOTE_PATTERN.RANGE then
    if pyLe vs.min data && pyLe data vs.max then .error "Vote data out of range."
    else
      match vote? with
      | none =>
        let v : Vote := { user := user, data := data }
        if vs.persisted then
          .ok ({ vs with
                 count := vs.count + 1
                 score := optAdd vs.score data
                 votes := vs.votes ++ [v] }, v)
        else
          .ok ({ vs with count := 1, score := data, votes := vs.votes ++ [v] }, v)
      | some v =>
        if data != v.data then
          .ok ({ (vs.setdata user data) with
                 score := optAdd (optSub vs.score v.data) data }, { v with data := data })
        else .ok (vs, v)
  else if vs.pattern == VOTE_PATTERN.CUSTOM then
    match vote? with
    | none => .error "AttributeError"
    | some v => .ok (vs.setdata user data, { v with data := data })
  else .error "Unknown voting pattern."

/-- VoteSet.cancelvote (source lines 280-293): if the voter has a record,
decrement `count`, reverse the score contribution per pattern (UP_ONLY:
`score - 1`; UP_DOWN/RANGE: `score - vote.data`; CUSTOM: untouched; any
other pattern raises), and delete the record.  No record: no-op. -/
def VoteSet.cancelvote (vs : VoteSet) (user : Nat) : Except String VoteSet :=
  match vs.getvote user with
  | none => .ok vs
  | some v =>
    let c := vs.count - 1
    let rest := vs.votes.filter (fun w => w.user != user)
    if vs.pattern == VOTE_PATTERN.UP_ONLY then
      .ok { vs with count := c, score := optSub vs.score (some 1), votes := rest }
    else if vs.pattern == VOTE_PATTERN.UP_DOWN || vs.pattern == VOTE_PATTERN.RANGE then
      .ok { vs with count := c, score := optSub vs.score v.data, votes := rest }
    else if vs.pattern == VOTE_PATTERN.CUSTOM then
      .ok { vs with count := c, votes := rest }
    else .error "Unknown voting pattern."

/-- Python `sum` over a list of int-or-None values: `0 + d1 + d2 + ...`,
raising TypeError (modelled as `none`) as soon as a None payload is added. -/
def pySum : List (Option Int) → Option Int
  | [] => some 0
  | d :: ds => optAdd d (pySum ds)

/-- VoteSet.recount (source lines 295-298): `count = len(self.votes)` and,
for every pattern except CUSTOM, `score = sum([v.data for v in self.votes])`.
The Python `sum` raises TypeError when any record's `data` is None. -/
def VoteSet.recount (vs : VoteSet) : Except String VoteSet :=
  if vs.pattern != VOTE_PATTERN.CUSTOM then
    match pySum (vs.votes.map (fun v => v.data)) with
    | some s => .ok { vs with count := vs.votes.length, score := some s }
    | none => .error "TypeError"
  else .ok { vs with count := vs.votes.length }

/-- Concrete vote sets used by the evaluation theorems below. -/
def freshUpDown : VoteSet := VoteSet.init VOTE_PATTERN.UP_DOWN

def upOnlyFresh : VoteSet := VoteSet.init VOTE_PATTERN.UP_ONLY

def upOnlySaved : VoteSet :=
  { VoteSet.init VOTE_PATTERN.UP_ONLY with persisted := true }

def upDownSaved : VoteSet :=
  { VoteSet.init VOTE_PATTERN.UP_DOWN with persisted := true }

def rangeSet : VoteSet :=
  { VoteSet.init VOTE_PATTERN.RANGE with
    min := some 1
    max := some 5
    persisted := true }

/-- Evaluation of the unsaved-object branch of UP_DOWN voting, outside the
C1 contract (which concerns vote sets that exist in the database).  On a
VoteSet whose row has not been saved yet (`self.id is None`, read
statically during the call), the source assigns the literals `count = 1`,
`score = data` (lines 230-231) instead of deltas, so two first votes by
distinct users before the set is saved leave count at 1. -/
theorem voteset_upDown_unsaved_literals_eval :
    (freshUpDown.vote 1 (some 1)).map (fun p => (p.1.count, p.1.getvote 2)) = .ok (1, none)
    ∧ ((freshUpDown.vote 1 (some 1)).bind (fun p => p.1.vote 2 (some 1))).map
        (fun p => (p.1.count, p.1.score)) = .ok (1, some 1)
    ∧ ((freshUpDown.vote 1 (some 1)).bind (fun p => p.1.vote 2 (some 1))).map
        (fun p => (p.1.count, p.1.score)) ≠ .ok (2, some 2) := by
  decide

/-- C2 evaluation.  RANGE VoteSet with bounds [1, 5]: voting 3 (in range,
1 ≤ 3 ≤ 5) raises the "out of range" ValueError, while voting 10 (out of
range) succeeds and is aggregated into count/score; a revote 10 → 20 then
adjusts the score by (data - old_data).  The source's bounds check (line
243) is inverted: it fails exactly on in-range data, the opposite of the
claim. -/
theorem voteset_range_inverted_eval :
    ((1 : Int) ≤ 3 ∧ (3 : Int) ≤ 5)
    ∧ ¬((1 : Int) ≤ 10 ∧ (10 : Int) ≤ 5)
    ∧ rangeSet.vote 7 (some 3) = .error "Vote data out of range."
    ∧ (rangeSet.vote 7 (some 10)).map (fun p => (p.1.count, p.1.score)) = .ok (1, some 10)
    ∧ ((rangeSet.vote 7 (some 10)).bind (fun p => p.1.vote 7 (some 20))).map
        (fun p => (p.1.count, p.1.score)) = .ok (1, some 20) := by
  decide

/-- C3 evaluation.  On a persisted UP_ONLY VoteSet one vote is cast:
incremental maintenance yields count 1, score 1, and one record whose
`data` payload is None.  `recount` must then recompute score as the sum of
the payloads, but Python's `sum` over a None payload raises TypeError, so
recount fails instead of reproducing the incremental values.  For UP_DOWN
(integer payloads) the round trip does hold: after votes +1 and -1,
recount reproduces count 2, score 0. -/
theorem voteset_recount_upOnly_eval :
    (upOnlySaved.vote 4 none).map (fun p => (p.1.count, p.1.score)) = .ok (1, some 1)
    ∧ (upOnlySaved.vote 4 none).bind (fun p => p.1.recount) = .error "TypeError"
    ∧ ((upDownSaved.vote 1 (some 1)).bind (fun p => p.1.vote 2 (some (-1)))).map
        (fun p => (p.1.count, p.1.score)) = .ok (2, some 0)
    ∧ (((upDownSaved.vote 1 (some 1)).bind (fun p => p.1.vote 2 (some (-1)))).bind
        (fun p => p.1.recount)).map (fun v => (v.count, v.score)) = .ok (2, some 0) := by
  decide

/-- C6 evaluation.  UP_ONLY voting: non-null data is rejected, and on a
persisted set the first vote adds 1 to count and score while a second vote
by the same voter is a no-op (count, score and the record list unchanged).
But on a freshly created, never saved set (`self.id is None`) the first
vote executes `self.count = 1; self.score = data` (source lines 216-217)
with `data = None`, assigning None to the non-nullable score column instead
of incrementing it by 1. -/
theorem voteset_upOnly_unsaved_score_eval :
    (upOnlyFresh.vote 1 none).map (fun p => (p.1.count, p.1.score)) = .ok (1, none)
    ∧ upOnlyFresh.vote 1 (some 1) = .error "Invalid vote data."
    ∧ (upOnlySaved.vote 4 none).map
        (fun p => (p.1.count, p.1.score, p.1.votes.length)) = .ok (1, some 1, 1)
    ∧ ((upOnlySaved.vote 4 none).bind (fun p => p.1.vote 4 none)).map
        (fun p => (p.1.count, p.1.score, p.1.votes.length)) = .ok (1, some 1, 1) := by
  decide

/-- Class Comment (source lines 303-368).  `user` is the nullable author,
`status` a small integer whose column default is 0 (source line 321 -- note
0 is not one of the COMMENT_STATUS values), `parser` defaults to
u'markdown', `_message`/`_message_html` are the stored text columns,
`reply_to` the nullable parent comment id, `votes` the owned VoteSet and
`edited_at` the nullable edit timestamp (time modelled as Nat). -/
structure Comment where
  id : Nat
  user : Option Nat
  status : Nat
  parser : String
  message : String
  message_html : Html
  reply_to : Option Nat
  votes : VoteSet
  edited_at : Option Nat
deriving DecidableEq

/-- Comment message setter (source lines 336-339): stores the raw value and
recomputes `_message_html` with `markdown(value)` -- unconditionally, the
`parser` column is never consulted. -/
def Comment.setMessage (c : Comment) (value : String) : Comment :=
  { c with message := value, message_html := markdown value }

/-- Comment construction as performed by `comment_action` (source line 494):
`Comment(user=g.user, commentset=commentset, message=...)`.  Column
defaults: `status = 0`, `parser = u'markdown'`; `Comment.__init__` (lines
328-330) attaches a fresh VoteSet with the default pattern UP_DOWN; the
`message` kwarg goes through the setter, so `_message_html` is the
markdown rendering. -/
def Comment.make (id : Nat) (user : Option Nat) (message : String) : Comment :=
  { id := id
    user := user
    status := 0
    parser := "markdown"
    message := message
    message_html := markdown message
    reply_to := none
    votes := VoteSet.init VOTE_PATTERN.UP_DOWN
    edited_at := none }

/-- Comment.is_deleted (source lines 363-365). -/
def Comment.is_deleted (c : Comment) : Bool :=
  c.status == COMMENT_STATUS.DELETED

/-- The `replies` relationship of the comment with id `cid`: all comments
in the store whose `reply_to` points at it (source line 315). -/
def replies (store : List Comment) (cid : Nat) : List Comment :=
  store.filter (fun x => x.reply_to == some cid)

/-- Truth value of `self.reply_to and self.reply_to.is_deleted` for a
parent id: the parent row exists and its status is DELETED. -/
def isDeletedIn (store : List Comment) (pid : Nat) : Bool :=
  match store.find? (fun x => x.id == pid) with
  | some p => p.is_deleted
  | none => false

/-- In-place tombstone mutation of the target comment (source lines
349-352): `status = DELETED; user = None; message = ''`, the last through
the message setter, so `message_html = markdown('')`.  Non-target rows are
untouched. -/
def tombstoneIfTarget (cid : Nat) (x : Comment) : Comment :=
  if x.id == cid then
    { x with
      status := COMMENT_STATUS.DELETED
      user := none
      message := ""
      message_html := markdown "" }
  else x

/-- Comment.delete (source lines 345-361), lifted to the comment store (the
rows of the comment table), with an explicit recursion bound.  The upward
cascade recurses on the parent only after removing the current row, so the
store shrinks at every recursive call; `deleteComment` below supplies
`store.length` as the bound, which therefore never runs out (the bound-zero
row-found situation is unreachable). -/
def deleteCommentFuel : Nat → List Comment → Nat → List Comment
  | 0, store, _ => store
  | fuel + 1, store, cid =>
    match store.find? (fun x => x.id == cid) with
    | none => store
    | some c =>
      if 0 < (replies store c.id).length then
        store.map (tombstoneIfTarget c.id)
      else
        match c.reply_to with
        | some pid =>
          if isDeletedIn store pid then
            deleteCommentFuel fuel (store.filter (fun x => x.id != c.id)) pid
          else store.filter (fun x => x.id != c.id)
        | none => store.filter (fun x => x.id != c.id)

/-- Comment.delete (source lines 345-361).  Deleting the comment with id
`cid`:
 - with replies: tombstone it in place (`status = DELETED`, `user = None`,
   `message = ''` through the setter, so `message_html = markdown('')`);
 - childless with a tombstoned parent: remove it from the parent's replies,
   hard-delete it, and re-invoke delete on the parent (the upward cascade);
 - otherwise: hard-delete it.
Deleting an id with no row is a no-op (the method is only ever called on an
existing comment). -/
def deleteComment (store : List Comment) (cid : Nat) : List Comment :=
  deleteCommentFuel store.length store cid

/-- Class CommentSet (source lines 370-398): the three counter columns. -/
structure CommentSet where
  count : Int
  count_toplevel : Int
  count_replies : Int
deriving DecidableEq

/-- CommentSet.__init__ (source lines 383-385). -/
def CommentSet.init : CommentSet :=
  { count := 0, count_toplevel := 0, count_replies := 0 }

/-- CommentSet.recount (source lines 387-398): count the comments in status
PUBLIC, partitioned by whether `reply_to` is set; `count` is the sum. -/
def CommentSet.recount (cs : CommentSet) (comments : List Comment) : CommentSet :=
  let toplevel : Int :=
    (comments.filter (fun c =>
      c.status == COMMENT_STATUS.PUBLIC && c.reply_to == none)).length
  let repl : Int :=
    (comments.filter (fun c =>
      c.status == COMMENT_STATUS.PUBLIC && c.reply_to != none)).length
  { cs with
    count_toplevel := toplevel
    count_replies := repl
    count := toplevel + repl }

/-- Commentease.comment_action, new-comment path (source lines 493-505):
build the comment (author `g.user`, message through the setter), attach
`reply_to` when the referenced comment exists in this commentset, execute
`commentset.count += 1`, and -- since the fresh VoteSet's pattern is the
default UP_DOWN -- cast the author's own +1 vote on it.  `newId` stands for
the scoped id the database assigns.  Only `count` is touched;
`count_toplevel`/`count_replies` are not updated, and the new comment keeps
the status column default 0. -/
def newCommentAction (cs : CommentSet) (store : List Comment) (guser : Nat)
    (message : String) (replyToId : Option Nat) (newId : Nat) :
    Except String (CommentSet × List Comment × Comment) :=
  let comment0 := Comment.make newId (some guser) message
  let comment1 :=
    match replyToId with
    | some rid =>
      match store.find? (fun x => x.id == rid) with
      | some r => { comment0 with reply_to := some r.id }
      | none => comment0
    | none => comment0
  let cs2 := { cs with count := cs.count + 1 }
  if comment1.votes.pattern == VOTE_PATTERN.UP_DOWN then
    match comment1.votes.vote guser (some 1) with
    | .ok (vs2, _) =>
      let comment2 := { comment1 with votes := vs2 }
      .ok (cs2, store ++ [comment2], comment2)
    | .error e => .error e
  else .ok (cs2, store ++ [comment1], comment1)

/-- Commentease.comment_action, edit path (source lines 482-492): look the
comment up by id; a missing comment flashes ("No such comment", "error");
an editor other than the stored author flashes ("You can only edit your
own comments", "info") and changes nothing; the author's edit replaces the
message through the setter and stamps `edited_at` with the current time.
Returns the comment table plus the flashed (text, category) pair. -/
def editCommentAction (store : List Comment) (guser : Option Nat) (editId : Nat)
    (message : String) (now : Nat) : List Comment × String × String :=
  match store.find? (fun x => x.id == editId) with
  | none => (store, "No such comment", "error")
  | some c =>
    if c.user == guser then
      (store.map (fun x =>
        if x.id == editId then { x.setMessage message with edited_at := some now }
        else x),
       "Your comment has been edited", "info")
    else (store, "You can only edit your own comments", "info")

/-- C4 evaluation.  Posting one comment to a fresh CommentSet through the
comment action: the resulting set has `count = 1` but
`count_toplevel = count_replies = 0` (the action only executes
`commentset.count += 1`), so `count = count_toplevel + count_replies`
fails; and `recount` over the stored comments yields 0 because the new
comment carries the status column default 0, which is not PUBLIC.  The
projection below reads (count, count_toplevel, count_replies, recounted
count, comment status). -/
theorem commentset_counters_not_maintained_eval :
    (newCommentAction CommentSet.init [] 1 "hello" none 1).map
      (fun r => (r.1.count, r.1.count_toplevel, r.1.count_replies,
                 (r.1.recount r.2.1).count, r.2.2.status)) = .ok (1, 0, 0, 0, 0)
    ∧ (1 : Int) ≠ 0 + 0
    ∧ COMMENT_STATUS.PUBLIC ≠ 0 := by
  decide

/-- C8 evaluation.  A comment whose `parser` tag is 'html' (with raw
message "# Title"): `Commentease.cook` selects the sanitizing renderer for
that tag, but both at construction and whenever the message is set the
`message` setter computes `markdown(value)` without consulting `parser`
(source line 339), so `message_html` is the markdown rendering, not the
rendering selected by the parser tag. -/
theorem comment_html_parser_ignored_eval :
    ({ Comment.make 1 (some 1) "# Title" with parser := "html" }).parser = "html"
    ∧ ({ Comment.make 1 (some 1) "# Title" with parser := "html" }).message_html
        = markdown "# Title"
    ∧ (({ Comment.make 1 (some 1) "# Title" with parser := "html" }).setMessage
        "# Title").message_html = markdown "# Title"
    ∧ cook "html" "# Title" = .ok (sanitize "# Title")
    ∧ Except.ok (({ Comment.make 1 (some 1) "# Title" with parser := "html"
        }).setMessage "# Title").message_html ≠ cook "html" "# Title" := by
  decide

/-- C10.  Any comment created through the comment action entry point gets
the default UP_DOWN VoteSet, and the engine immediately casts the author's
own +1 vote on it: the freshly created comment's VoteSet holds exactly one
record (the author's +1) with count 1 and score 1, not zero, and the
commentset's count went up by one. -/
theorem new_comment_self_vote (cs : CommentSet) (store : List Comment)
    (guser : Nat) (message : String) (replyToId : Option Nat) (newId : Nat) :
    ∃ cs2 store2 c2,
      newCommentAction cs store guser message replyToId newId = .ok (cs2, store2, c2)
      ∧ c2.votes.pattern = VOTE_PATTERN.UP_DOWN
      ∧ c2.votes.count = 1
      ∧ c2.votes.score = some 1
      ∧ c2.votes.votes = [{ user := guser, data := some 1 }]
      ∧ cs2.count = cs.count + 1
      ∧ store2 = store ++ [c2] := by
  rcases replyToId with _ | rid
  · exact ⟨_, _, _, rfl, rfl, rfl, rfl, rfl, rfl, rfl⟩
  · rcases hfind : store.find? (fun x => x.id == rid) with _ | r
    · simp only [newCommentAction, hfind]
      exact ⟨_, _, _, rfl, rfl, rfl, rfl, rfl, rfl, rfl⟩
    · simp only [newCommentAction, hfind]
      exact ⟨_, _, _, rfl, rfl, rfl, rfl, rfl, rfl, rfl⟩

/-- Updating the voter's record payload commutes with the point lookup:
after `setdata`, the voter's record is the old one with the new payload. -/
lemma find?_setdata (l : List Vote) (u : Nat) (d : Option Int) (v : Vote)
    (h : l.find? (fun w => w.user == u) = some v) :
    (l.map (fun w => if w.user == u then { w with data := d } else w)).find?
      (fun w => w.user == u) = some { v with data := d } := by
  induction l with
  | nil => simp at h
  | cons a t ih =>
    by_cases ha : (a.user == u) = true
    · simp only [List.find?, ha] at h
      injection h with h2
      subst h2
      simp only [List.map_cons]
      rw [if_pos ha]
      simp only [List.find?, ha]
    · have ha2 : (a.user == u) = false := by simpa using ha
      simp only [List.find?, ha2] at h
      simp only [List.map_cons]
      rw [if_neg ha]
      simp only [List.find?, ha2]
      exact ih h

/-- After filtering out the voter's records, the point lookup for that
voter is empty. -/
lemma find?_filter_user_ne (l : List Vote) (u : Nat) :
    (l.filter (fun w => w.user != u)).find? (fun w => w.user == u) = none := by
  rw [List.find?_eq_none]
  intro x hx
  have h2 := (List.mem_filter.mp hx).2
  simp only [bne, Bool.not_eq_true'] at h2
  simp [h2]

/-- C1 theorem.  For an UP_DOWN VoteSet -- one that exists in the database
(`self.id` is not None; the data model gives every VoteSet an identity):
data other than exactly +1 or -1 -- including absent data -- raises the
validation error; a first vote by a voter appends that voter's record and
applies the deltas `count + 1`, `score + data`; a revote with a different
value leaves `count` unchanged and the record list the same length, adds
`data * 2` to `score`, and updates the stored record's payload in place;
a revote with the same value returns the set and record completely
unchanged, creating no second record. -/
theorem voteset_upDown_vote_spec (vs : VoteSet) (u : Nat)
    (hpat : vs.pattern = VOTE_PATTERN.UP_DOWN) (hpers : vs.persisted = true) :
    (vs.vote u none = .error "Invalid vote data.")
    ∧ (∀ x : Int, x ≠ 1 → x ≠ -1 → vs.vote u (some x) = .error "Invalid vote data.")
    ∧ (∀ d : Int, (d = 1 ∨ d = -1) → vs.getvote u = none →
        ∃ vs2, vs.vote u (some d) = .ok (vs2, { user := u, data := some d })
          ∧ vs2.count = vs.count + 1
          ∧ vs2.score = optAdd vs.score (some d)
          ∧ vs2.votes = vs.votes ++ [{ user := u, data := some d }])
    ∧ (∀ d : Int, (d = 1 ∨ d = -1) → ∀ v, vs.getvote u = some v → v.data ≠ some d →
        ∃ vs2, vs.vote u (some d) = .ok (vs2, { v with data := some d })
          ∧ vs2.count = vs.count
          ∧ vs2.votes.length = vs.votes.length
          ∧ (∀ s, vs.score = some s → vs2.score = some (s + 2 * d))
          ∧ vs2.getvote u = some { v with data := some d })
    ∧ (∀ v, vs.getvote u = some v → (v.data = some 1 ∨ v.data = some (-1)) →
        vs.vote u v.data = .ok (vs, v)) := by
  refine ⟨?_, ?_, ?_, ?_, ?_⟩
  · simp [VoteSet.vote, hpat, VOTE_PATTERN.UP_ONLY, VOTE_PATTERN.UP_DOWN]
  · intro x hx1 hx2
    simp [VoteSet.vote, hpat, VOTE_PATTERN.UP_ONLY, VOTE_PATTERN.UP_DOWN, hx1, hx2]
  · intro d hd hgv
    rcases hd with rfl | rfl <;>
      simp [VoteSet.vote, hpat, VOTE_PATTERN.UP_ONLY, VOTE_PATTERN.UP_DOWN, hgv, hpers]
  · intro d hd v hgv hvd
    have hbne : (some d != v.data) = true := by
      simp only [bne, Bool.not_eq_true']
      simp only [beq_eq_false_iff_ne]
      exact fun h => hvd h.symm
    refine ⟨{ (vs.setdata u (some d)) with
        score := optAdd vs.score (optAdd (some d) (some d)) }, ?_, rfl, ?_, ?_, ?_⟩
    · rcases hd with rfl | rfl <;>
        simp [VoteSet.vote, hpat, VOTE_PATTERN.UP_ONLY, VOTE_PATTERN.UP_DOWN,
          hgv, hpers, hbne]
    · simp [VoteSet.setdata]
    · intro s hs
      simp [optAdd, hs, two_mul]
    · exact find?_setdata vs.votes u (some d) v hgv
  · intro v hgv hv1
    have hval : (v.data != some 1 && v.data != some (-1)) = false := by
      rcases hv1 with h | h <;> simp [h]
    simp [VoteSet.vote, hpat, VOTE_PATTERN.UP_ONLY, VOTE_PATTERN.UP_DOWN, hgv, hval]

/-- Concrete persisted UP_DOWN VoteSet used by the C1 witness: three prior
voters, current score 1, voter 9's stored vote is +1. -/
def upDownW : VoteSet :=
  { pattern := VOTE_PATTERN.UP_DOWN
    count := 3
    score := some 1
    min := none
    max := none
    persisted := true
    votes := [{ user := 9, data := some 1 }, { user := 5, data := some (-1) }] }

/-- Witness for the C1 theorem at a concrete persisted UP_DOWN VoteSet:
invalid data is rejected; voter 9's revote from +1 to -1 keeps count at 3,
moves score from 1 to -1 (delta -2) and rewrites the stored record; voter
9's revote with the unchanged value +1 returns everything untouched. -/
theorem voteset_upDown_vote_spec_witness :
    (upDownW.vote 9 (some 5) = .error "Invalid vote data.")
    ∧ (∃ vs2, upDownW.vote 9 (some (-1))
          = .ok (vs2, { user := 9, data := some (-1) })
        ∧ vs2.count = upDownW.count
        ∧ vs2.votes.length = upDownW.votes.length
        ∧ (∀ s, upDownW.score = some s → vs2.score = some (s + 2 * (-1)))
        ∧ vs2.getvote 9 = some { user := 9, data := some (-1) })
    ∧ upDownW.vote 9 (some 1) = .ok (upDownW, { user := 9, data := some 1 }) := by
  obtain ⟨h1, h2, h3, h4, h5⟩ := voteset_upDown_vote_spec upDownW 9 rfl rfl
  refine ⟨h2 5 (by decide) (by decide), ?_, ?_⟩
  · exact h4 (-1) (Or.inr rfl) { user := 9, data := some 1 } rfl (by decide)
  · exact h5 { user := 9, data := some 1 } rfl (Or.inl rfl)

/-- C7 theorem.  cancelvote: with no record for the voter it is a no-op
returning the set unchanged; with a record (on any of the four defined
patterns) it removes the record (a subsequent getvote is absent),
decrements `count` by exactly 1, and reverses the score contribution:
`score - 1` for UP_ONLY, `score - data` for UP_DOWN and RANGE, and score
untouched for CUSTOM. -/
theorem voteset_cancelvote_spec (vs : VoteSet) (u : Nat) :
    (vs.getvote u = none → vs.cancelvote u = .ok vs)
    ∧ (∀ v, vs.getvote u = some v →
        (vs.pattern = VOTE_PATTERN.UP_ONLY ∨ vs.pattern = VOTE_PATTERN.UP_DOWN
          ∨ vs.pattern = VOTE_PATTERN.RANGE ∨ vs.pattern = VOTE_PATTERN.CUSTOM) →
        ∃ vs2, vs.cancelvote u = .ok vs2
          ∧ vs2.count = vs.count - 1
          ∧ vs2.getvote u = none
          ∧ (vs.pattern = VOTE_PATTERN.UP_ONLY → vs2.score = optSub vs.score (some 1))
          ∧ (vs.pattern = VOTE_PATTERN.UP_DOWN ∨ vs.pattern = VOTE_PATTERN.RANGE →
              vs2.score = optSub vs.score v.data)
          ∧ (vs.pattern = VOTE_PATTERN.CUSTOM → vs2.score = vs.score)) := by
  constructor
  · intro h
    simp [VoteSet.cancelvote, h]
  · intro v hv hpat
    rcases hpat with h | h | h | h
    · refine ⟨{ vs with
          count := vs.count - 1
          score := optSub vs.score (some 1)
          votes := vs.votes.filter (fun w => w.user != u) },
        ?_, rfl, find?_filter_user_ne vs.votes u, fun _ => rfl, ?_, ?_⟩
      · simp [VoteSet.cancelvote, hv, h, VOTE_PATTERN.UP_ONLY]
      · intro hc
        rw [h] at hc
        rcases hc with hc | hc <;> exact absurd hc (by decide)
      · intro hc
        rw [h] at hc
        exact absurd hc (by decide)
    · refine ⟨{ vs with
          count := vs.count - 1
          score := optSub vs.score v.data
          votes := vs.votes.filter (fun w => w.user != u) },
        ?_, rfl, find?_filter_user_ne vs.votes u, ?_, fun _ => rfl, ?_⟩
      · simp [VoteSet.cancelvote, hv, h, VOTE_PATTERN.UP_ONLY, VOTE_PATTERN.UP_DOWN]
      · intro hc
        rw [h] at hc
        exact absurd hc (by decide)
      · intro hc
        rw [h] at hc
        exact absurd hc (by decide)
    · refine ⟨{ vs with
          count := vs.count - 1
          score := optSub vs.score v.data
          votes := vs.votes.filter (fun w => w.user != u) },
        ?_, rfl, find?_filter_user_ne vs.votes u, ?_, fun _ => rfl, ?_⟩
      · simp [VoteSet.cancelvote, hv, h, VOTE_PATTERN.UP_ONLY, VOTE_PATTERN.UP_DOWN,
          VOTE_PATTERN.RANGE]
      · intro hc
        rw [h] at hc
        exact absurd hc (by decide)
      · intro hc
        rw [h] at hc
        exact absurd hc (by decide)
    · refine ⟨{ vs with
          count := vs.count - 1
          votes := vs.votes.filter (fun w => w.user != u) },
        ?_, rfl, find?_filter_user_ne vs.votes u, ?_, ?_, fun _ => rfl⟩
      · simp [VoteSet.cancelvote, hv, h, VOTE_PATTERN.UP_ONLY, VOTE_PATTERN.UP_DOWN,
          VOTE_PATTERN.RANGE, VOTE_PATTERN.CUSTOM]
      · intro hc
        rw [h] at hc
        exact absurd hc (by decide)
      · intro hc
        rw [h] at hc
        rcases hc with hc | hc <;> exact absurd hc (by decide)

/-- Concrete persisted UP_DOWN VoteSet used by the C7 witness: two prior
voters counted, one remaining record, voter 5's stored vote is -1. -/
def upDownW2 : VoteSet :=
  { upDownW with count := 2, votes := [{ user := 5, data := some (-1) }] }

/-- Witness for the C7 theorem: on a concrete persisted UP_DOWN set where
voter 5 stored a -1 vote, cancelling voter 7 (who never voted) changes
nothing, and cancelling voter 5 drops the count from 2 to 1, removes the
record, and adds the stored -1 back into the score. -/
theorem voteset_cancelvote_spec_witness :
    upDownW2.cancelvote 7 = .ok upDownW2
    ∧ ∃ vs2, upDownW2.cancelvote 5 = .ok vs2
        ∧ vs2.count = upDownW2.count - 1
        ∧ vs2.getvote 5 = none
        ∧ vs2.score = optSub (some 1) (some (-1)) := by
  constructor
  · exact (voteset_cancelvote_spec upDownW2 7).1 rfl
  · obtain ⟨vs2, he, hc, hg, _, hscore, _⟩ :=
      (voteset_cancelvote_spec upDownW2 5).2
        { user := 5, data := some (-1) } rfl (Or.inr (Or.inl rfl))
    exact ⟨vs2, he, hc, hg, hscore (Or.inl rfl)⟩

/-- C9 theorem.  The edit path of the comment action: when the acting user
differs from the stored author, the edit is refused -- the not-authorized
notice "You can only edit your own comments" is flashed and the comment
table is returned unchanged, so message, message_html and edited_at all
keep their prior values.  When the acting user is the author, the edit
notice is flashed and the edited comment's message is replaced, its
message_html recomputed by the message setter, and its edited_at stamped
with the current time. -/
theorem comment_edit_auth_spec (store : List Comment) (guser : Option Nat)
    (editId : Nat) (msg : String) (now : Nat) (c : Comment)
    (hfind : store.find? (fun x => x.id == editId) = some c) :
    (c.user ≠ guser →
      editCommentAction store guser editId msg now
        = (store, "You can only edit your own comments", "info"))
    ∧ (c.user = guser →
      (editCommentAction store guser editId msg now).2
          = ("Your comment has been edited", "info")
      ∧ ∀ x ∈ (editCommentAction store guser editId msg now).1, x.id = editId →
          x.message = msg ∧ x.message_html = markdown msg ∧ x.edited_at = some now) := by
  constructor
  · intro hne
    have hb : (c.user == guser) = false := by
      simp only [beq_eq_false_iff_ne]
      exact hne
    simp [editCommentAction, hfind, hb]
  · intro heq
    have hb : (c.user == guser) = true := by simp [heq]
    constructor
    · simp [editCommentAction, hfind, hb]
    · intro x hx hid
      simp only [editCommentAction, hfind, hb, if_true] at hx
      obtain ⟨y, hy, rfl⟩ := List.mem_map.mp hx
      by_cases hyid : (y.id == editId) = true
      · rw [if_pos hyid]
        exact ⟨rfl, rfl, rfl⟩
      · rw [if_neg hyid] at hid
        exact absurd (beq_iff_eq.mpr hid) hyid

/-- Concrete one-comment table used by the C9 witness: comment 3 authored
by user 7. -/
def editStoreW : List Comment := [Comment.make 3 (some 7) "hi"]

/-- Witness for the C9 theorem: user 8's edit of comment 3 (authored by
user 7) is refused with the not-authorized notice and the table is
unchanged; author 7's edit flashes the success notice and rewrites the
comment's message, rendering and edit timestamp. -/
theorem comment_edit_auth_spec_witness :
    (editCommentAction editStoreW (some 8) 3 "new text" 99
      = (editStoreW, "You can only edit your own comments", "info"))
    ∧ ((editCommentAction editStoreW (some 7) 3 "new text" 99).2
      = ("Your comment has been edited", "info"))
    ∧ (∀ x ∈ (editCommentAction editStoreW (some 7) 3 "new text" 99).1,
        x.id = 3 → x.message = "new text" ∧ x.message_html = markdown "new text"
          ∧ x.edited_at = some 99) := by
  refine ⟨?_, ?_, ?_⟩
  · exact (comment_edit_auth_spec editStoreW (some 8) 3 "new text" 99
      (Comment.make 3 (some 7) "hi") rfl).1 (by decide)
  · exact ((comment_edit_auth_spec editStoreW (some 7) 3 "new text" 99
      (Comment.make 3 (some 7) "hi") rfl).2 rfl).1
  · exact ((comment_edit_auth_spec editStoreW (some 7) 3 "new text" 99
      (Comment.make 3 (some 7) "hi") rfl).2 rfl).2

/-- tombstoneIfTarget preserves a row's identity. -/
lemma tombstoneIfTarget_id (cid : Nat) (x : Comment) :
    (tombstoneIfTarget cid x).id = x.id := by
  unfold tombstoneIfTarget
  split <;> rfl

/-- tombstoneIfTarget preserves a row's parent pointer. -/
lemma tombstoneIfTarget_reply_to (cid : Nat) (x : Comment) :
    (tombstoneIfTarget cid x).reply_to = x.reply_to := by
  unfold tombstoneIfTarget
  split <;> rfl

/-- Tombstoning one row commutes with collecting a comment's replies. -/
lemma replies_map_tombstone (store : List Comment) (cid z : Nat) :
    replies (store.map (tombstoneIfTarget cid)) z
      = (replies store z).map (tombstoneIfTarget cid) := by
  induction store with
  | nil => rfl
  | cons a t ih =>
    simp only [replies] at ih ⊢
    simp only [List.map_cons, List.filter_cons, tombstoneIfTarget_reply_to]
    by_cases hr : (a.reply_to == some z) = true <;> simp [hr, ih]

/-- A comment has replies exactly when some row points at it. -/
lemma replies_ne_nil_iff (s : List Comment) (z : Nat) :
    replies s z ≠ [] ↔ ∃ x ∈ s, x.reply_to = some z := by
  unfold replies
  constructor
  · intro h
    by_contra hno
    push_neg at hno
    exact h (List.filter_eq_nil_iff.mpr fun a ha => by simp [hno a ha])
  · rintro ⟨x, hx, hrx⟩ hnil
    have h2 := List.filter_eq_nil_iff.mp hnil x hx
    simp [hrx] at h2

/-- Ids absent from the store stay absent through a delete: the cascade
only tombstones and removes rows, never introduces new ids. -/
lemma deleteCommentFuel_absent (fuel : Nat) :
    ∀ (store : List Comment) (cid k : Nat), (∀ y ∈ store, y.id ≠ k) →
      ∀ x ∈ deleteCommentFuel fuel store cid, x.id ≠ k := by
  induction fuel with
  | zero =>
    intro store cid k habs x hx
    exact habs x hx
  | succ n ih =>
    intro store cid k habs x hx
    simp only [deleteCommentFuel] at hx
    cases hfind : store.find? (fun y => y.id == cid) with
    | none =>
      simp only [hfind] at hx
      exact habs x hx
    | some c =>
      simp only [hfind] at hx
      by_cases hrep : 0 < (replies store c.id).length
      · rw [if_pos hrep] at hx
        obtain ⟨y, hy, rfl⟩ := List.mem_map.mp hx
        rw [tombstoneIfTarget_id]
        exact habs y hy
      · rw [if_neg hrep] at hx
        cases hrt : c.reply_to with
        | none =>
          simp only [hrt] at hx
          exact habs x (List.mem_of_mem_filter hx)
        | some pid =>
          simp only [hrt] at hx
          by_cases hpd : isDeletedIn store pid = true
          · rw [if_pos hpd] at hx
            exact ih _ pid k (fun y hy => habs y (List.mem_of_mem_filter hy)) x hx
          · rw [if_neg hpd] at hx
            exact habs x (List.mem_of_mem_filter hx)

/-- A deleted row found by id really is a deleted row of the store. -/
lemma isDeletedIn_of_mem (store : List Comment) (pid : Nat) (x : Comment)
    (hnd : (store.map (fun y => y.id)).Nodup)
    (hx : x ∈ store) (hid : x.id = pid) (hdel : x.is_deleted = true) :
    isDeletedIn store pid = true := by
  unfold isDeletedIn
  cases hf : store.find? (fun y => y.id == pid) with
  | none =>
    have h2 := List.find?_eq_none.mp hf x hx
    simp [hid] at h2
  | some p =>
    have hp : p.id = pid := by simpa using List.find?_some hf
    have hpmem := List.mem_of_find?_eq_some hf
    have hpx : p = x :=
      List.inj_on_of_nodup_map hnd hpmem hx (by rw [hp, hid])
    rw [hpx]
    exact hdel

/-- Removing one row (by its unique id) keeps every other comment's reply
set nonempty, as long as the removed row was not one of those replies. -/
lemma replies_filter_ne_nil (store : List Comment) (cid z : Nat) (c : Comment)
    (hnd : (store.map (fun y => y.id)).Nodup)
    (hcmem : c ∈ store) (hcid : c.id = cid)
    (hcnot : c.reply_to ≠ some z)
    (h : replies store z ≠ []) :
    replies (store.filter (fun y => y.id != cid)) z ≠ [] := by
  rw [replies_ne_nil_iff] at h ⊢
  obtain ⟨w, hw, hwr⟩ := h
  refine ⟨w, ?_, hwr⟩
  rw [List.mem_filter]
  refine ⟨hw, ?_⟩
  have hwc : w ≠ c := by
    intro heq
    rw [heq] at hwr
    exact hcnot hwr
  have hwid : w.id ≠ cid := by
    intro hwid
    exact hwc (List.inj_on_of_nodup_map hnd hw hcmem (by rw [hwid, hcid]))
  simpa using hwid

/-- Core invariant of the delete cascade: if, apart from the deletion
target itself, no tombstone is childless before a delete, then no
tombstone at all is childless afterwards. -/
lemma deleteCommentFuel_noCT (fuel : Nat) :
    ∀ (store : List Comment) (cid : Nat),
      store.length ≤ fuel →
      (store.map (fun x => x.id)).Nodup →
      (∀ x ∈ store, x.is_deleted = true → x.id ≠ cid → replies store x.id ≠ []) →
      ∀ x ∈ deleteCommentFuel fuel store cid, x.is_deleted = true →
        replies (deleteCommentFuel fuel store cid) x.id ≠ [] := by
  induction fuel with
  | zero =>
    intro store cid hlen _hnd _h x hx _hdel
    have hs : store = [] := List.length_eq_zero.mp (Nat.le_zero.mp hlen)
    subst hs
    simp [deleteCommentFuel] at hx
  | succ n ih =>
    intro store cid hlen hnd h x hx hdel
    simp only [deleteCommentFuel] at hx ⊢
    cases hfind : store.find? (fun y => y.id == cid) with
    | none =>
      simp only [hfind] at hx ⊢
      have hnc : x.id ≠ cid := by
        have h2 := List.find?_eq_none.mp hfind x hx
        simpa using h2
      exact h x hx hdel hnc
    | some c =>
      have hcid : c.id = cid := by simpa using List.find?_some hfind
      have hcmem : c ∈ store := List.mem_of_find?_eq_some hfind
      simp only [hfind] at hx ⊢
      by_cases hrep : 0 < (replies store c.id).length
      · rw [if_pos hrep] at hx
        rw [if_pos hrep]
        obtain ⟨y, hy, rfl⟩ := List.mem_map.mp hx
        rw [tombstoneIfTarget_id, replies_map_tombstone]
        intro hnil
        have hemp : replies store y.id = [] := List.map_eq_nil_iff.mp hnil
        by_cases hyc : y.id = c.id
        · rw [hyc] at hemp
          rw [hemp] at hrep
          simp at hrep
        · have hydel : y.is_deleted = true := by
            rw [tombstoneIfTarget, if_neg (by simp [hyc])] at hdel
            exact hdel
          have hyne : y.id ≠ cid := by
            rw [← hcid]
            exact hyc
          exact (h y hy hydel hyne) hemp
      · rw [if_neg hrep] at hx
        rw [if_neg hrep]
        cases hrt : c.reply_to with
        | none =>
          simp only [hrt] at hx ⊢
          have hxmem := List.mem_of_mem_filter hx
          have hxid : x.id ≠ c.id := by
            have h2 := (List.mem_filter.mp hx).2
            simpa using h2
          have hne := h x hxmem hdel (hcid ▸ hxid)
          exact replies_filter_ne_nil store c.id x.id c hnd hcmem rfl
            (by simp [hrt]) hne
        | some pid =>
          simp only [hrt] at hx ⊢
          by_cases hpd : isDeletedIn store pid = true
          · rw [if_pos hpd] at hx
            rw [if_pos hpd]
            have hflt : (store.filter (fun y => y.id != c.id)).length < store.length := by
              rw [List.length_filter_lt_length_iff_exists]
              exact ⟨c, hcmem, by simp⟩
            refine ih (store.filter (fun y => y.id != c.id)) pid (by omega)
              (List.Nodup.sublist ((List.filter_sublist store).map _) hnd) ?_ x hx hdel
            intro z hz hzdel hzpid
            have hzmem := List.mem_of_mem_filter hz
            have hzid : z.id ≠ c.id := by
              have h2 := (List.mem_filter.mp hz).2
              simpa using h2
            have hne := h z hzmem hzdel (hcid ▸ hzid)
            refine replies_filter_ne_nil store c.id z.id c hnd hcmem rfl ?_ hne
            rw [hrt]
            intro hc
            injection hc with hc2
            exact hzpid hc2.symm
          · rw [if_neg hpd] at hx
            rw [if_neg hpd]
            have hxmem := List.mem_of_mem_filter hx
            have hxid : x.id ≠ c.id := by
              have h2 := (List.mem_filter.mp hx).2
              simpa using h2
            have hne := h x hxmem hdel (hcid ▸ hxid)
            refine replies_filter_ne_nil store c.id x.id c hnd hcmem rfl ?_ hne
            rw [hrt]
            intro hc
            injection hc with hc2
            exact hpd (isDeletedIn_of_mem store pid x hnd hxmem hc2.symm hdel)

/-- A childless comment is really removed by delete: no row with its id
survives (the cascade only shrinks the store further). -/
lemma deleteCommentFuel_removes (fuel : Nat) :
    ∀ (store : List Comment) (cid : Nat) (c : Comment),
      store.length ≤ fuel →
      store.find? (fun x => x.id == cid) = some c →
      replies store c.id = [] →
      ∀ x ∈ deleteCommentFuel fuel store cid, x.id ≠ c.id := by
  induction fuel with
  | zero =>
    intro store cid c hlen hfind _hrep x hx
    have hs : store = [] := List.length_eq_zero.mp (Nat.le_zero.mp hlen)
    subst hs
    simp [List.find?] at hfind
  | succ n _ih =>
    intro store cid c _hlen hfind hrep x hx
    simp only [deleteCommentFuel, hfind] at hx
    have hnr : ¬0 < (replies store c.id).length := by simp [hrep]
    rw [if_neg hnr] at hx
    cases hrt : c.reply_to with
    | none =>
      simp only [hrt] at hx
      have h2 := (List.mem_filter.mp hx).2
      simpa using h2
    | some pid =>
      simp only [hrt] at hx
      by_cases hpd : isDeletedIn store pid = true
      · rw [if_pos hpd] at hx
        refine deleteCommentFuel_absent n (store.filter (fun y => y.id != c.id))
          pid c.id ?_ x hx
        intro y hy
        have h2 := (List.mem_filter.mp hy).2
        simpa using h2
      · rw [if_neg hpd] at hx
        have h2 := (List.mem_filter.mp hx).2
        simpa using h2

/-- C5 theorem.  Comment.delete on a store with unique ids, targeting the
stored comment `c` with id `cid`:
 - target with replies: it is tombstoned in place -- some row keeps its id
   and parent pointer and now carries status DELETED, a null author and an
   empty message whose rendering is the rendering of the empty string --
   while the (id, parent) structure of the whole table and every other row
   survive unchanged, so the replies stay attached;
 - childless target: no row with its id survives the delete (the cascade
   hard-deletes it and only ever removes further rows upward);
 - and the cascade guarantee: if no tombstone was childless before the
   delete, no tombstone is childless after it, so tombstones never persist
   once they have lost their last descendant. -/
theorem comment_delete_spec (store : List Comment) (cid : Nat) (c : Comment)
    (hnd : (store.map (fun x => x.id)).Nodup)
    (hfound : store.find? (fun x => x.id == cid) = some c) :
    (replies store cid ≠ [] →
      ((deleteComment store cid).map (fun x => (x.id, x.reply_to))
          = store.map (fun x => (x.id, x.reply_to))
       ∧ (∃ c2, c2 ∈ deleteComment store cid ∧ c2.id = cid
           ∧ c2.status = COMMENT_STATUS.DELETED ∧ c2.user = none
           ∧ c2.message = "" ∧ c2.message_html = markdown ""
           ∧ c2.reply_to = c.reply_to ∧ c2.votes = c.votes)
       ∧ (∀ x ∈ store, x.id ≠ cid → x ∈ deleteComment store cid)))
    ∧ (replies store cid = [] → ∀ x ∈ deleteComment store cid, x.id ≠ cid)
    ∧ ((∀ x ∈ store, x.is_deleted = true → replies store x.id ≠ []) →
        ∀ x ∈ deleteComment store cid, x.is_deleted = true →
          replies (deleteComment store cid) x.id ≠ []) := by
  have hcid : c.id = cid := by simpa using List.find?_some hfound
  have hcmem : c ∈ store := List.mem_of_find?_eq_some hfound
  have hpos : 0 < store.length := List.length_pos.mpr (List.ne_nil_of_mem hcmem)
  refine ⟨?_, ?_, ?_⟩
  · intro hrep
    have hrep2 : 0 < (replies store c.id).length := by
      rw [hcid]
      exact List.length_pos.mpr hrep
    have hdel : deleteComment store cid = store.map (tombstoneIfTarget c.id) := by
      unfold deleteComment
      rw [(Nat.succ_pred_eq_of_pos hpos).symm]
      simp only [deleteCommentFuel, hfound, if_pos hrep2]
    rw [hdel]
    refine ⟨?_, ?_, ?_⟩
    · rw [List.map_map]
      apply List.map_congr_left
      intro a _
      simp [Function.comp, tombstoneIfTarget_id, tombstoneIfTarget_reply_to]
    · refine ⟨tombstoneIfTarget c.id c, List.mem_map_of_mem _ hcmem,
        ?_, ?_, ?_, ?_, ?_, ?_, ?_⟩
      · rw [tombstoneIfTarget_id]
        exact hcid
      · simp [tombstoneIfTarget]
      · simp [tombstoneIfTarget]
      · simp [tombstoneIfTarget]
      · simp [tombstoneIfTarget]
      · rw [tombstoneIfTarget_reply_to]
      · simp [tombstoneIfTarget]
    · intro x hx hxne
      have hfx : tombstoneIfTarget c.id x = x := by
        rw [tombstoneIfTarget, if_neg]
        simp only [beq_iff_eq, hcid]
        exact hxne
      rw [← hfx]
      exact List.mem_map_of_mem _ hx
  · intro hrep x hx
    have h2 := deleteCommentFuel_removes store.length store cid c le_rfl hfound
      (hcid ▸ hrep) x hx
    rw [hcid] at h2
    exact h2
  · intro hglob
    exact deleteCommentFuel_noCT store.length store cid le_rfl hnd
      (fun x hx hdel _ => hglob x hx hdel)

/-- Concrete two-row comment table for the C5 witness: comment 1 is a
tombstone (status DELETED, author cleared) whose only reply is the PUBLIC
comment 2. -/
def wP : Comment := { Comment.make 1 none "" with status := COMMENT_STATUS.DELETED }

def wC : Comment :=
  { Comment.make 2 (some 4) "reply" with
    reply_to := some 1
    status := COMMENT_STATUS.PUBLIC }

def wStore : List Comment := [wP, wC]

/-- Witness for the C5 theorem: deleting tombstone 1 while its reply 2 is
still present keeps the table structure, leaves a tombstoned row with id 1
(status DELETED, author null, message empty), and preserves the
no-childless-tombstone invariant. -/
theorem comment_delete_spec_witness :
    ((deleteComment wStore 1).map (fun x => (x.id, x.reply_to))
        = wStore.map (fun x => (x.id, x.reply_to)))
    ∧ (∃ c2, c2 ∈ deleteComment wStore 1 ∧ c2.id = 1
        ∧ c2.status = COMMENT_STATUS.DELETED ∧ c2.user = none
        ∧ c2.message = "" ∧ c2.message_html = markdown ""
        ∧ c2.reply_to = wP.reply_to ∧ c2.votes = wP.votes)
    ∧ (∀ x ∈ deleteComment wStore 1, x.is_deleted = true →
        replies (deleteComment wStore 1) x.id ≠ []) := by
  obtain ⟨hA, _hC, hB⟩ := comment_delete_spec wStore 1 wP (by decide) rfl
  obtain ⟨h1, h2, _h3⟩ := hA (by decide)
  exact ⟨h1, h2, hB (by decide)⟩

end Commentease
